import Mathlib

/-!
# Verification of the redeemlink news-publishing pipeline

Shallow embedding of the pipeline implemented in `deploy_logic.py`
(Hugo variant) and `astro_deploy_logic.py` (Astro variant):

* Python string primitives used by the code (`str.strip`, `str.lower`,
  `str.isalnum`, `str.replace`, the `<.*?>` markup-stripping regex) are
  modelled character-by-character.  `str.isalnum` and `str.lower` are
  modelled on their ASCII fragment (Python's full Unicode tables are
  library behaviour outside this repository); the titles and summaries
  examined below are ASCII.
* Directories are modelled as association lists from relative path to
  file content (`Tree`); `insertT` has file-write semantics (overwrite
  if the path exists, append otherwise).
* External collaborators (git, the GitHub contents API, feedparser) are
  modelled by their documented observable behaviour: a git commit has
  "nothing to commit" exactly when the staged tree equals the cloned
  tree; `feedparser.parse` traps all network/parse errors and returns a
  result object with the `bozo` flag set instead of raising.
-/

namespace Redeemlink

/-! ## Python character and string primitives -/

/-- Python whitespace characters relevant to `str.strip()`. -/
def pyIsSpace (c : Char) : Bool :=
  c = ' ' || c = '\t' || c = '\n' || c = '\x0d' || c = '\x0b' || c = '\x0c'

/-- `str.strip()` on a character list: drop whitespace from both ends. -/
def pyStripList (s : List Char) : List Char :=
  ((s.dropWhile pyIsSpace).reverse.dropWhile pyIsSpace).reverse

/-- `str.strip()` on a string. -/
def pyStrip (s : String) : String :=
  String.mk (pyStripList s.data)

/-- ASCII model of Python `str.isalnum` on one character:
digits `0-9`, uppercase `A-Z`, lowercase `a-z`. -/
def pyIsAlnum (c : Char) : Bool :=
  decide ((48 ≤ c.toNat ∧ c.toNat ≤ 57) ∨ (65 ≤ c.toNat ∧ c.toNat ≤ 90) ∨
    (97 ≤ c.toNat ∧ c.toNat ≤ 122))

/-- ASCII model of Python `str.lower` on one character. -/
def pyLowerChar (c : Char) : Char :=
  if 65 ≤ c.toNat ∧ c.toNat ≤ 90 then Char.ofNat (c.toNat + 32) else c

/-- One character of `slug.replace(" ", "-")`. -/
def spaceToHyphen (c : Char) : Char :=
  if c = ' ' then '-' else c

/-- The character filter of the slug computation:
`c.isalnum() or c in " - "`. -/
def keepSlugChar (c : Char) : Bool :=
  pyIsAlnum c || c = ' ' || c = '-'

/-- `title.replace('"', '')`. -/
def removeQuotes (s : String) : String :=
  String.mk (s.data.filter (fun c => c ≠ '"'))

/-- `.replace('"', '\\"')`: each double quote becomes backslash-quote. -/
def escapeQuotes : List Char → List Char
  | [] => []
  | c :: rest =>
    if c = '"' then '\\' :: '"' :: escapeQuotes rest else c :: escapeQuotes rest

/-- Helper for the `<.*?>` regex: given the characters after a `<`,
find the characters after the closing `>` of a lazy match; `.` does not
match a newline, so the match fails if a newline comes first. -/
def findTagClose : List Char → Option (List Char)
  | [] => none
  | c :: rest =>
    if c = '>' then some rest
    else if c = '\n' then none
    else findTagClose rest

/-- Worker for `cleanHtml`, structurally recursive on a fuel bound.
Each recursive call consumes at least one character of the input, so
fuel equal to the input length never runs out. -/
def cleanHtmlF : Nat → List Char → List Char
  | _, [] => []
  | 0, s => s
  | fuel + 1, c :: rest =>
    if c = '<' then
      match findTagClose rest with
      | some rest' => cleanHtmlF fuel rest'
      | none => c :: cleanHtmlF fuel rest
    else c :: cleanHtmlF fuel rest

/-- `re.sub('<.*?>', '', s)`: delete every lazy tag match, scanning
left to right (the `clean_html` helper of `generate_posts_for_astro`). -/
def cleanHtml (s : List Char) : List Char := cleanHtmlF s.length s

/-! ## Directories as path-to-content maps -/

/-- A directory tree (or a git branch's tree): an association list from
relative path to file content. -/
abbrev Tree := List (String × String)

/-- Look up the content at a path. -/
def lookupT (k : String) : Tree → Option String
  | [] => none
  | (k', v) :: t => if k' = k then some v else lookupT k t

/-- File-write semantics: overwrite the entry at the path if present,
otherwise add the file. -/
def insertT (k v : String) : Tree → Tree
  | [] => [(k, v)]
  | (k', v') :: t => if k' = k then (k, v) :: t else (k', v') :: insertT k v t

/-- The set of paths present in a tree. -/
def keysT (t : Tree) : List String := t.map Prod.fst

/-- Extensional equality of two trees as maps (decidably, by checking
every path mentioned by either tree). -/
def treeEqB (t₁ t₂ : Tree) : Bool :=
  (keysT t₁ ++ keysT t₂).all (fun k => lookupT k t₁ == lookupT k t₂)

theorem lookupT_insertT_self (k v : String) (t : Tree) :
    lookupT k (insertT k v t) = some v := by
  induction t with
  | nil => simp [insertT, lookupT]
  | cons p rest ih =>
    obtain ⟨k', v'⟩ := p
    by_cases h : k' = k
    · simp [insertT, lookupT, h]
    · simp [insertT, lookupT, h, ih]

theorem lookupT_insertT_ne (k k' v : String) (t : Tree) (h : k' ≠ k) :
    lookupT k (insertT k' v t) = lookupT k t := by
  induction t with
  | nil => simp [insertT, lookupT, h]
  | cons p rest ih =>
    obtain ⟨k₀, v₀⟩ := p
    by_cases h0 : k₀ = k'
    · simp [insertT, lookupT, h0, h]
    · by_cases h1 : k₀ = k
      · simp [insertT, lookupT, h0, h1, Ne.symm h]
      · simp [insertT, lookupT, h0, h1, ih]

theorem keysT_cons (k v : String) (rest : Tree) :
    keysT ((k, v) :: rest) = k :: keysT rest := rfl

theorem mem_keysT_cons (k k' v' : String) (rest : Tree) :
    k ∈ keysT ((k', v') :: rest) ↔ k = k' ∨ k ∈ keysT rest := by
  simp [keysT]

theorem lookupT_eq_none_of_not_mem (k : String) (t : Tree)
    (h : k ∉ keysT t) : lookupT k t = none := by
  induction t with
  | nil => simp [lookupT]
  | cons p rest ih =>
    obtain ⟨k', v'⟩ := p
    rw [mem_keysT_cons] at h
    push_neg at h
    simp [lookupT, Ne.symm h.1, ih h.2]

theorem treeEqB_iff (t₁ t₂ : Tree) :
    treeEqB t₁ t₂ = true ↔ ∀ k, lookupT k t₁ = lookupT k t₂ := by
  constructor
  · intro h k
    by_cases hk : k ∈ keysT t₁ ++ keysT t₂
    · have := List.all_eq_true.mp h k hk
      exact beq_iff_eq.mp this
    · simp only [List.mem_append] at hk
      push_neg at hk
      rw [lookupT_eq_none_of_not_mem k t₁ hk.1,
        lookupT_eq_none_of_not_mem k t₂ hk.2]
  · intro h
    apply List.all_eq_true.mpr
    intro k _
    exact beq_iff_eq.mpr (h k)

theorem keysT_insertT_mem (k v : String) (t : Tree) (h : k ∈ keysT t) :
    keysT (insertT k v t) = keysT t := by
  induction t with
  | nil => simp [keysT] at h
  | cons p rest ih =>
    obtain ⟨k', v'⟩ := p
    by_cases h0 : k' = k
    · simp [insertT, keysT, h0]
    · rw [mem_keysT_cons] at h
      rcases h with h | h
      · exact absurd h.symm h0
      · rw [show insertT k v ((k', v') :: rest) = (k', v') :: insertT k v rest
          from by simp [insertT, h0]]
        rw [keysT_cons, keysT_cons, ih h]

theorem keysT_insertT_not_mem (k v : String) (t : Tree) (h : k ∉ keysT t) :
    keysT (insertT k v t) = keysT t ++ [k] := by
  induction t with
  | nil => simp [insertT, keysT]
  | cons p rest ih =>
    obtain ⟨k', v'⟩ := p
    rw [mem_keysT_cons] at h
    push_neg at h
    rw [show insertT k v ((k', v') :: rest) = (k', v') :: insertT k v rest
      from by simp [insertT, Ne.symm h.1]]
    rw [keysT_cons, keysT_cons, ih h.2]
    rfl

/-! ## Feed items and the content renderers -/

/-- One feed entry as used by the renderers.  `summary` is `none` when
the entry lacks the attribute (the `hasattr` checks); `published` is
the ISO-8601 string of the entry's parsed publication time, `none`
when the attribute is missing or `datetime(*published_parsed[:6])`
raised (the `try`/`except` fallback). -/
structure Item where
  title : String
  link : String
  summary : Option String
  published : Option String
deriving DecidableEq, Repr

/-- The slug computation shared by both renderers:
`"".join(c for c in title if c.isalnum() or c in " - ")[:60].strip().lower().replace(" ", "-")`
(with the `.replace` applied on the following line of the source). -/
def pySlug (title : String) : String :=
  let filtered := title.data.filter keepSlugChar
  let stripped := pyStripList (filtered.take 60)
  String.mk ((stripped.map pyLowerChar).map spaceToHyphen)

/-- The markdown filename written for an item: the slug of the
quote-stripped title plus `.md`. -/
def slugFilename (item : Item) : String :=
  pySlug (removeQuotes item.title) ++ ".md"

/-- The Astro renderer's description:
`clean_html(summary).replace('"', '\\"').strip()[:155] + '...'`. -/
def mkDescription (summary : String) : String :=
  String.mk ((pyStripList (escapeQuotes (cleanHtml summary.data))).take 155)
    ++ "..."

/-- The exact file content written by `generate_posts_for_astro` for
one item (`now` is `datetime.now().isoformat()`). -/
def mkAstroContent (now : String) (item : Item) : String :=
  let title := removeQuotes item.title
  let summary := item.summary.getD ""
  let description := mkDescription summary
  let pubDate := item.published.getD now
  "---\ntitle: \"" ++ title ++ "\"\ndescription: \"" ++ description ++
    "\"\npubDate: " ++ pubDate ++ "\nlink: \"" ++ item.link ++
    "\" \n---\n\n" ++ summary ++ "\n\n[Read full story â†’](" ++
    item.link ++ ")\n"

/-- The exact file content written by `generate_hugo_posts` for one
item (`now` is `datetime.now().isoformat()`). -/
def mkHugoContent (now : String) (item : Item) : String :=
  let title := removeQuotes item.title
  let summary := item.summary.getD ""
  "\n---\ntitle: \"" ++ title ++ "\"\ndate: " ++ now ++ "\nlink: \"" ++
    item.link ++ "\" \n---\n\n" ++ summary ++
    "\n\n[Read full story →](" ++ item.link ++ ")\n"

/-- `generate_hugo_posts`: the target directory is created with
`exist_ok=True` and never cleared, so the prior contents survive; an
item whose slug file already exists is skipped
(`if filename.exists(): continue`). -/
def generate_hugo_posts (now : String) (prior : Tree) (items : List Item) :
    Tree :=
  items.foldl
    (fun t item =>
      match lookupT (slugFilename item) t with
      | some _ => t
      | none => insertT (slugFilename item) (mkHugoContent now item) t)
    prior

/-- `generate_posts_for_astro`: both the temporary directory and the
Astro blog directory are removed (`shutil.rmtree`) and recreated before
writing, so the prior contents are discarded; each item's file is then
written (overwriting an earlier item with the same slug), and the
result is copied wholesale into the cleared blog directory. -/
def generate_posts_for_astro (now : String) (prior : Tree)
    (items : List Item) : Tree :=
  let _ := prior
  items.foldl
    (fun t item => insertT (slugFilename item) (mkAstroContent now item) t)
    []

/-! ## Feed fetching -/

/-- The object returned by `feedparser.parse`: the entry list plus the
`bozo` flag that records a network or parse failure.  `feedparser`
traps those failures internally and never raises. -/
structure FeedResult where
  entries : List Item
  bozo : Bool
deriving DecidableEq, Repr

/-- `fetch_google_news` (identical in both variants): parse the feed
URL and return `feed.entries[:30]`.  The function body contains no
`try`/`raise`; modelled as `Except` to make "raises" expressible. -/
def fetch_google_news (feed : FeedResult) : Except String (List Item) :=
  Except.ok (feed.entries.take 30)

/-! ## Publisher strategy A: full branch replacement
(`AstroDeployer.deploy_to_github`) -/

/-- Python truthiness of the `cname_content` / `sitemap_content`
variables: `None` and the empty string are falsy. -/
def optTruthy : Option String → Bool
  | none => false
  | some s => s ≠ ""

/-- The CNAME restore step of strategy A, applied to the tree after
clearing and copying the build output:
`if cname_content: write(cname_content) elif self.domain: write(self.domain.strip())`. -/
def cnameStep (clone output : Tree) (domain : String) : Tree :=
  if optTruthy (lookupT "CNAME" clone) then
    insertT "CNAME" ((lookupT "CNAME" clone).getD "") output
  else if domain ≠ "" then insertT "CNAME" (pyStrip domain) output
  else output

/-- The sitemap restore step of strategy A:
`if sitemap_content: write(sitemap_content)`. -/
def sitemapStep (clone : Tree) (t1 : Tree) : Tree :=
  if optTruthy (lookupT "sitemap.xml" clone) then
    insertT "sitemap.xml" ((lookupT "sitemap.xml" clone).getD "") t1
  else t1

/-- The scratch tree at commit time: after cloning the branch
(`clone`), snapshotting `CNAME` and `sitemap.xml`, deleting everything
except `.git`, copying the build output (`output`), and running the
two restore steps in source order. -/
def finalTreeA (clone output : Tree) (domain : String) : Tree :=
  sitemapStep clone (cnameStep clone output domain)

/-- Outcome of one `deploy_to_github` run of strategy A. -/
inductive DeployOutcome where
  | success
  | noopSuccess
  | errorRaised
deriving DecidableEq, Repr

/-- Observable result of one strategy-A publish run. -/
structure DeployAResult where
  outcome : DeployOutcome
  pushed : Bool
  scratchRemains : Bool
  newRemote : Tree
deriving DecidableEq, Repr

/-- Strategy A publish, for a run in which the branch clone succeeds.
`pushOk` injects the success or failure of the force-push subprocess.
The commit reports "nothing to commit, working tree clean" exactly
when the staged tree equals the cloned tree; that path removes the
scratch directory and returns.  The success path pushes and removes
the scratch directory.  An error raised by the push propagates with no
cleanup (the source has no `try`/`finally` around it), leaving the
scratch directory on disk. -/
def deployA (clone output : Tree) (domain : String) (pushOk : Bool) :
    DeployAResult :=
  let final := finalTreeA clone output domain
  if treeEqB final clone then
    { outcome := .noopSuccess, pushed := false, scratchRemains := false,
      newRemote := clone }
  else if pushOk then
    { outcome := .success, pushed := true, scratchRemains := false,
      newRemote := final }
  else
    { outcome := .errorRaised, pushed := false, scratchRemains := true,
      newRemote := clone }

/-! ## Publisher strategy B: incremental API upload
(`HugoDeployer.deploy_to_github`) -/

/-- One Contents-API upsert: the relative path, the uploaded content,
and the prior blob SHA supplied with the request (`none` when the file
does not yet exist on the branch). -/
structure UploadCall where
  path : String
  content : String
  sha : Option String
deriving DecidableEq, Repr

/-- Strategy B's upload loop over `uploadable_files`: for every
enumerated file, in order, read the file's current SHA on the branch
(`remote`) and issue one upsert.  The loop body contains no skip of
any path. -/
def uploadPlan (files : List (String × String)) (remote : Tree) :
    List UploadCall :=
  files.map (fun pc => ⟨pc.1, pc.2, lookupT pc.1 remote⟩)

/-! ## Supporting lemmas -/

/-- A character allowed in a finished slug: lowercase ASCII letter,
digit, or hyphen. -/
def isGoodSlugChar (c : Char) : Bool :=
  decide ((97 ≤ c.toNat ∧ c.toNat ≤ 122) ∨ (48 ≤ c.toNat ∧ c.toNat ≤ 57) ∨
    c.toNat = 45)

theorem toNat_ofNat_add32 (n : Nat) (h1 : 65 ≤ n) (h2 : n ≤ 90) :
    (Char.ofNat (n + 32)).toNat = n + 32 := by
  interval_cases n <;> decide

theorem good_of_keep (c : Char) (h : keepSlugChar c = true) :
    isGoodSlugChar (spaceToHyphen (pyLowerChar c)) = true := by
  simp only [keepSlugChar, pyIsAlnum, Bool.or_eq_true, decide_eq_true_eq] at h
  rcases h with ((h | h | h) | h) | h
  · -- digit
    have hlc : pyLowerChar c = c := by
      unfold pyLowerChar
      rw [if_neg (by omega)]
    have hne : c ≠ ' ' := by
      intro heq
      rw [heq] at h
      exact absurd h.1 (by decide)
    rw [hlc, spaceToHyphen, if_neg hne]
    simp only [isGoodSlugChar, decide_eq_true_eq]
    omega
  · -- uppercase letter
    have hlc : pyLowerChar c = Char.ofNat (c.toNat + 32) := by
      unfold pyLowerChar
      rw [if_pos h]
    have htn : (Char.ofNat (c.toNat + 32)).toNat = c.toNat + 32 :=
      toNat_ofNat_add32 c.toNat h.1 h.2
    have hne : Char.ofNat (c.toNat + 32) ≠ ' ' := by
      intro heq
      have h2 := congrArg Char.toNat heq
      rw [htn] at h2
      have h32 : (' ').toNat = 32 := by decide
      omega
    rw [hlc, spaceToHyphen, if_neg hne]
    simp only [isGoodSlugChar, decide_eq_true_eq]
    omega
  · -- lowercase letter
    have hlc : pyLowerChar c = c := by
      unfold pyLowerChar
      rw [if_neg (by omega)]
    have hne : c ≠ ' ' := by
      intro heq
      rw [heq] at h
      exact absurd h.1 (by decide)
    rw [hlc, spaceToHyphen, if_neg hne]
    simp only [isGoodSlugChar, decide_eq_true_eq]
    omega
  · subst h; decide
  · subst h; decide

theorem pyStripList_subset (l : List Char) : pyStripList l ⊆ l := by
  intro c hc
  unfold pyStripList at hc
  rw [List.mem_reverse] at hc
  have h1 := List.dropWhile_subset (l := (l.dropWhile pyIsSpace).reverse)
    pyIsSpace hc
  rw [List.mem_reverse] at h1
  exact List.dropWhile_subset pyIsSpace h1

theorem pyStripList_length_le (l : List Char) :
    (pyStripList l).length ≤ l.length := by
  unfold pyStripList
  rw [List.length_reverse]
  calc ((l.dropWhile pyIsSpace).reverse.dropWhile pyIsSpace).length
      ≤ (l.dropWhile pyIsSpace).reverse.length :=
        (List.dropWhile_sublist pyIsSpace).length_le
    _ = (l.dropWhile pyIsSpace).length := List.length_reverse _
    _ ≤ l.length := (List.dropWhile_sublist pyIsSpace).length_le

theorem lookupT_some_of_mem (k : String) (t : Tree) (h : k ∈ keysT t) :
    ∃ v, lookupT k t = some v := by
  induction t with
  | nil => simp [keysT] at h
  | cons p rest ih =>
    obtain ⟨k', v'⟩ := p
    by_cases h0 : k' = k
    · exact ⟨v', by simp [lookupT, h0]⟩
    · rw [mem_keysT_cons] at h
      rcases h with h | h
      · exact absurd h.symm h0
      · obtain ⟨v, hv⟩ := ih h
        exact ⟨v, by simp [lookupT, h0, hv]⟩

theorem not_mem_of_lookupT_none (k : String) (t : Tree)
    (h : lookupT k t = none) : k ∉ keysT t := by
  intro hmem
  obtain ⟨v, hv⟩ := lookupT_some_of_mem k t hmem
  rw [hv] at h
  exact Option.noConfusion h

theorem optTruthy_some (o : Option String) (h : optTruthy o = true) :
    o = some (o.getD "") := by
  cases o with
  | none => simp [optTruthy] at h
  | some s => rfl

theorem lookupT_cnameStep_cname (clone output : Tree) (domain : String) :
    lookupT "CNAME" (cnameStep clone output domain) =
      if optTruthy (lookupT "CNAME" clone) then lookupT "CNAME" clone
      else if domain ≠ "" then some (pyStrip domain)
      else lookupT "CNAME" output := by
  unfold cnameStep
  by_cases hcn : optTruthy (lookupT "CNAME" clone) = true
  · rw [if_pos hcn, if_pos hcn, lookupT_insertT_self]
    exact (optTruthy_some _ hcn).symm
  · rw [Bool.not_eq_true] at hcn
    rw [hcn]
    simp only [Bool.false_eq_true, if_false]
    by_cases hd : domain ≠ ""
    · rw [if_pos hd, if_pos hd, lookupT_insertT_self]
    · rw [if_neg hd, if_neg hd]

theorem lookupT_cnameStep_other (clone output : Tree) (domain k : String)
    (h : k ≠ "CNAME") :
    lookupT k (cnameStep clone output domain) = lookupT k output := by
  unfold cnameStep
  split_ifs with h1 h2
  · exact lookupT_insertT_ne k "CNAME" _ output (Ne.symm h)
  · exact lookupT_insertT_ne k "CNAME" _ output (Ne.symm h)
  · rfl

theorem lookupT_sitemapStep_sitemap (clone t1 : Tree) :
    lookupT "sitemap.xml" (sitemapStep clone t1) =
      if optTruthy (lookupT "sitemap.xml" clone) then
        lookupT "sitemap.xml" clone
      else lookupT "sitemap.xml" t1 := by
  unfold sitemapStep
  by_cases hsm : optTruthy (lookupT "sitemap.xml" clone) = true
  · rw [if_pos hsm, if_pos hsm, lookupT_insertT_self]
    exact (optTruthy_some _ hsm).symm
  · rw [Bool.not_eq_true] at hsm
    rw [hsm]
    simp only [Bool.false_eq_true, if_false]

theorem lookupT_sitemapStep_other (clone t1 : Tree) (k : String)
    (h : k ≠ "sitemap.xml") :
    lookupT k (sitemapStep clone t1) = lookupT k t1 := by
  unfold sitemapStep
  split_ifs with h1
  · exact lookupT_insertT_ne k "sitemap.xml" _ t1 (Ne.symm h)
  · rfl

/-- Pointwise characterization of the strategy-A scratch tree at
commit time. -/
theorem lookupT_finalTreeA (clone output : Tree) (domain k : String) :
    lookupT k (finalTreeA clone output domain) =
      if k = "CNAME" then
        (if optTruthy (lookupT "CNAME" clone) then lookupT "CNAME" clone
         else if domain ≠ "" then some (pyStrip domain)
         else lookupT "CNAME" output)
      else if k = "sitemap.xml" then
        (if optTruthy (lookupT "sitemap.xml" clone) then
           lookupT "sitemap.xml" clone
         else lookupT "sitemap.xml" output)
      else lookupT k output := by
  unfold finalTreeA
  by_cases hk : k = "CNAME"
  · subst hk
    rw [if_pos rfl,
      lookupT_sitemapStep_other clone _ "CNAME" (by decide),
      lookupT_cnameStep_cname]
  · by_cases hk2 : k = "sitemap.xml"
    · subst hk2
      rw [if_neg hk, if_pos rfl, lookupT_sitemapStep_sitemap,
        lookupT_cnameStep_other clone output domain "sitemap.xml" (by decide)]
    · rw [if_neg hk, if_neg hk2, lookupT_sitemapStep_other clone _ k hk2,
        lookupT_cnameStep_other clone output domain k hk]

/-- Re-running the restore logic on its own output is a no-op as a
map: the key idempotence fact behind the nothing-to-commit fast path
of a second publish run. -/
theorem finalTreeA_idem (clone output : Tree) (domain : String) :
    treeEqB (finalTreeA (finalTreeA clone output domain) output domain)
      (finalTreeA clone output domain) = true := by
  rw [treeEqB_iff]
  intro k
  rw [lookupT_finalTreeA (finalTreeA clone output domain) output domain k]
  by_cases hk : k = "CNAME"
  · subst hk
    rw [if_pos rfl, lookupT_finalTreeA clone output domain "CNAME", if_pos rfl]
    by_cases h1 : optTruthy (lookupT "CNAME" clone) = true
    · rw [if_pos h1, if_pos h1]
    · rw [Bool.not_eq_true] at h1
      rw [h1]
      simp only [Bool.false_eq_true, if_false]
      by_cases hd : domain ≠ ""
      · rw [if_pos hd]
        by_cases hv : pyStrip domain = ""
        · rw [hv]
          simp only [optTruthy, ne_eq]
          split <;> simp [hd, hv]
        · simp only [optTruthy, ne_eq]
          split <;> simp [hd, hv]
      · rw [if_neg hd]
        by_cases hw : optTruthy (lookupT "CNAME" output) = true
        · rw [if_pos hw]
        · rw [Bool.not_eq_true] at hw
          rw [hw]
          simp only [Bool.false_eq_true, if_false, if_neg hd]
  · by_cases hk2 : k = "sitemap.xml"
    · subst hk2
      rw [if_neg hk, if_pos rfl,
        lookupT_finalTreeA clone output domain "sitemap.xml",
        if_neg hk, if_pos rfl]
      by_cases h1 : optTruthy (lookupT "sitemap.xml" clone) = true
      · rw [if_pos h1, if_pos h1]
      · rw [Bool.not_eq_true] at h1
        rw [h1]
        simp only [Bool.false_eq_true, if_false]
        by_cases hw : optTruthy (lookupT "sitemap.xml" output) = true
        · rw [if_pos hw]
        · rw [Bool.not_eq_true] at hw
          rw [hw]
          simp only [Bool.false_eq_true, if_false]
    · rw [if_neg hk, if_neg hk2,
        lookupT_finalTreeA clone output domain k, if_neg hk, if_neg hk2]

/-- Folding the Astro per-item write over items with pairwise-distinct
slug filenames, none already present, appends exactly those filenames. -/
theorem astro_fold_keys (now : String) :
    ∀ (items : List Item) (t : Tree),
      (∀ i ∈ items, slugFilename i ∉ keysT t) →
      (items.map slugFilename).Nodup →
      keysT (items.foldl
        (fun t item =>
          insertT (slugFilename item) (mkAstroContent now item) t) t)
        = keysT t ++ items.map slugFilename := by
  intro items
  induction items with
  | nil => intro t _ _; simp
  | cons i rest ih =>
    intro t hfresh hnd
    have hi : slugFilename i ∉ keysT t := hfresh i (List.mem_cons_self i rest)
    have hkeys := keysT_insertT_not_mem (slugFilename i)
      (mkAstroContent now i) t hi
    simp only [List.map_cons, List.nodup_cons] at hnd
    have hfresh' : ∀ j ∈ rest,
        slugFilename j ∉
          keysT (insertT (slugFilename i) (mkAstroContent now i) t) := by
      intro j hj
      rw [hkeys]
      simp only [List.mem_append, List.mem_singleton]
      push_neg
      refine ⟨hfresh j (List.mem_cons_of_mem i hj), ?_⟩
      intro heq
      exact hnd.1 (heq ▸ List.mem_map_of_mem slugFilename hj)
    simp only [List.foldl_cons]
    rw [ih (insertT (slugFilename i) (mkAstroContent now i) t) hfresh' hnd.2,
      hkeys, List.map_cons, List.append_assoc, List.singleton_append]

/-- Folding the Hugo per-item step never removes a path. -/
theorem hugo_fold_keys_mono (now : String) :
    ∀ (items : List Item) (t : Tree) (p : String), p ∈ keysT t →
      p ∈ keysT (items.foldl
        (fun t item =>
          match lookupT (slugFilename item) t with
          | some _ => t
          | none => insertT (slugFilename item) (mkHugoContent now item) t)
        t) := by
  intro items
  induction items with
  | nil => intro t p hp; simpa using hp
  | cons i rest ih =>
    intro t p hp
    simp only [List.foldl_cons]
    rcases hl : lookupT (slugFilename i) t with _ | v
    · have hmem : slugFilename i ∉ keysT t := not_mem_of_lookupT_none _ _ hl
      have := keysT_insertT_not_mem (slugFilename i) (mkHugoContent now i)
        t hmem
      apply ih
      rw [this]
      exact List.mem_append_left _ hp
    · exact ih t p hp

/-! ## Spec-side slug recipes (for the refinement comparison of C5) -/

/-- Modelled from the spec claim wording of C5: keep only
alphanumeric characters, spaces, and hyphens from the title, truncate
to 60 characters, lowercase, and replace spaces with hyphens — with no
strip step. -/
def slugSpecClaim (title : String) : String :=
  String.mk ((((title.data.filter keepSlugChar).take 60).map
    pyLowerChar).map spaceToHyphen)

/-- The C5 recipe amended minimally: strip leading and trailing
whitespace after the 60-character truncation (the `.strip()` call the
source performs), before lowercasing and hyphen replacement. -/
def slugSpecAmended (title : String) : String :=
  String.mk (((pyStripList ((title.data.filter keepSlugChar).take 60)).map
    pyLowerChar).map spaceToHyphen)

/-! ## Claim theorems -/

/-- C1 counterexample: a build output containing `sitemap.xml` leads
strategy B to issue a read and an upsert for that very path — the
upload plan is exactly that one call, so the claimed unconditional
skip does not exist. -/
theorem strategyB_sitemap_counterexample :
    uploadPlan [("sitemap.xml", "<urlset></urlset>")] [] =
      [⟨"sitemap.xml", "<urlset></urlset>", none⟩] := rfl

/-- C1 (amended): strategy B skips nothing: every regular file
enumerated under the build output directory, the sitemap included,
gets exactly one upsert, in enumeration order, carrying the file's
current remote content identifier. -/
theorem strategyB_no_skip (files : List (String × String)) (remote : Tree) :
    (uploadPlan files remote).map UploadCall.path = files.map Prod.fst ∧
    ∀ pc ∈ files,
      (⟨pc.1, pc.2, lookupT pc.1 remote⟩ : UploadCall) ∈
        uploadPlan files remote := by
  constructor
  · rw [uploadPlan, List.map_map]
    rfl
  · intro pc hpc
    exact List.mem_map_of_mem _ hpc

/-- C2 counterexample: for a summary containing a double quote, the
rendered description is not the markup-stripped summary plus the
marker: the code escapes quotes (and strips whitespace) before
truncating, so the description differs from the claimed form. -/
theorem description_escape_counterexample :
    String.mk (cleanHtml ("He said \"hi\"").data) = "He said \"hi\"" ∧
    (String.mk (cleanHtml ("He said \"hi\"").data)).length ≤ 155 ∧
    mkDescription "He said \"hi\"" ≠
      String.mk (cleanHtml ("He said \"hi\"").data) ++ "..." := by decide

/-- C2 (amended): the description is built from the markup-stripped
summary after escaping double quotes and stripping leading/trailing
whitespace; if that escaped-and-stripped text is longer than 155
characters the description is exactly its first 155 characters plus
the ellipsis marker, otherwise the whole text plus the marker. -/
theorem description_truncation (summary : String) :
    (155 < (pyStripList (escapeQuotes (cleanHtml summary.data))).length →
      mkDescription summary =
        String.mk ((pyStripList (escapeQuotes
          (cleanHtml summary.data))).take 155) ++ "...") ∧
    ((pyStripList (escapeQuotes (cleanHtml summary.data))).length ≤ 155 →
      mkDescription summary =
        String.mk (pyStripList (escapeQuotes (cleanHtml summary.data)))
          ++ "...") := by
  constructor
  · intro _
    rfl
  · intro h
    unfold mkDescription
    rw [List.take_of_length_le h]

/-- C2 witness: a short summary with markup is preserved in full
(markup-stripped) plus the marker. -/
theorem description_truncation_witness :
    (pyStripList (escapeQuotes (cleanHtml ("abc<i>!</i>").data))).length
      ≤ 155 ∧
    mkDescription "abc<i>!</i>" =
      String.mk (pyStripList (escapeQuotes (cleanHtml ("abc<i>!</i>").data)))
        ++ "..." :=
  ⟨by decide, (description_truncation "abc<i>!</i>").2 (by decide)⟩

/-- C5 counterexample: for the title `"a "` the code's slug is `"a"`
(the trailing space is stripped before lowercasing), while the claimed
recipe — which omits the strip step — yields `"a-"`. -/
theorem slug_strip_counterexample :
    pySlug "a " = "a" ∧ slugSpecClaim "a " = "a-" ∧
    pySlug "a " ≠ slugSpecClaim "a " := by decide

/-- C5 (amended): slug derivation is a pure function of the title
(deterministic), produces only lowercase ASCII letters, digits and
hyphens, has length at most 60, and equals the spec recipe amended
with the strip step: keep only alphanumerics, spaces and hyphens,
truncate to 60, strip surrounding whitespace, lowercase, and replace
spaces with hyphens. -/
theorem slug_derivation (title : String) :
    pySlug title = pySlug title ∧
    (∀ c ∈ (pySlug title).data, isGoodSlugChar c = true) ∧
    (pySlug title).length ≤ 60 ∧
    pySlug title = slugSpecAmended title := by
  refine ⟨rfl, ?_, ?_, rfl⟩
  · intro c hc
    have hc2 : c ∈ ((pyStripList ((title.data.filter keepSlugChar).take
        60)).map pyLowerChar).map spaceToHyphen := hc
    obtain ⟨b, hb, rfl⟩ := List.mem_map.mp hc2
    obtain ⟨a, ha, rfl⟩ := List.mem_map.mp hb
    have ha2 : a ∈ (title.data.filter keepSlugChar).take 60 :=
      pyStripList_subset _ ha
    have ha3 : a ∈ title.data.filter keepSlugChar :=
      List.take_subset 60 _ ha2
    have hkeep : keepSlugChar a = true := (List.mem_filter.mp ha3).2
    exact good_of_keep a hkeep
  · show ((pyStripList ((title.data.filter keepSlugChar).take 60)).map
      pyLowerChar |>.map spaceToHyphen).length ≤ 60
    rw [List.length_map, List.length_map]
    calc (pyStripList ((title.data.filter keepSlugChar).take 60)).length
        ≤ ((title.data.filter keepSlugChar).take 60).length :=
          pyStripList_length_le _
      _ ≤ 60 := by
          rw [List.length_take]
          exact Nat.min_le_left _ _

/-- C5 witness: concrete slug computation agreeing with the amended
recipe. -/
theorem slug_derivation_witness :
    pySlug "Hello World!" = slugSpecAmended "Hello World!" ∧
    (pySlug "Hello World!").length ≤ 60 :=
  ⟨(slug_derivation "Hello World!").2.2.2,
    (slug_derivation "Hello World!").2.2.1⟩

/-- C8 counterexample: a parse failure (`bozo` set, no entries) makes
`fetch_google_news` silently return an empty result instead of
raising. -/
theorem fetch_silent_counterexample :
    fetch_google_news ⟨[], true⟩ = Except.ok [] := rfl

/-- C8 (amended): `fetch_google_news` never raises: whatever the
parser produced — including a failed parse flagged by `bozo` — it
returns the first at-most-30 entries as a normal result. -/
theorem fetch_never_raises (feed : FeedResult) :
    fetch_google_news feed = Except.ok (feed.entries.take 30) ∧
    ∀ msg : String, fetch_google_news feed ≠ Except.error msg :=
  ⟨rfl, fun _ h => Except.noConfusion h⟩

/-- A stale file left by a previous render run. -/
def staleTree : Tree := [("old-post.md", "stale content")]

/-- Concrete feed items with distinct titles. -/
def itemAlpha : Item := ⟨"Alpha", "http://a", some "sum a", none⟩

def itemBeta : Item := ⟨"Beta", "http://b", some "sum b", none⟩

/-- Concrete feed items with identical titles (same slug) but
different links and summaries. -/
def itemDupA : Item := ⟨"AI Breakthrough!", "http://a", some "s1", none⟩

def itemDupB : Item := ⟨"AI Breakthrough!", "http://b", some "s2", none⟩

/-- C3 counterexample: the Hugo renderer does not clear its target
directory: rendering one item into a directory already holding one
stale file leaves two files, the stale one included — against the
claimed clear-then-write behaviour. -/
theorem hugo_no_clear_counterexample :
    (generate_hugo_posts "2024-01-01T00:00:00" staleTree [itemAlpha]).length
      = 2 ∧
    lookupT "old-post.md"
      (generate_hugo_posts "2024-01-01T00:00:00" staleTree [itemAlpha])
      = some "stale content" := by decide

/-- C3 (amended): the Astro renderer clears the target entirely, so
rendering items with pairwise-distinct slugs into any previously
populated directory yields exactly one file per item and nothing else;
the Hugo renderer, by contrast, never clears its directory, so every
prior file survives. -/
theorem renderer_clear_semantics (now : String) (prior : Tree)
    (items : List Item) (hnd : (items.map slugFilename).Nodup) :
    keysT (generate_posts_for_astro now prior items)
      = items.map slugFilename ∧
    (generate_posts_for_astro now prior items).length = items.length ∧
    ∀ p ∈ keysT prior, p ∈ keysT (generate_hugo_posts now prior items) := by
  have hkeys := astro_fold_keys now items []
    (by intro i _; simp [keysT]) hnd
  have h1 : keysT (generate_posts_for_astro now prior items)
      = items.map slugFilename := by
    simpa [generate_posts_for_astro, keysT] using hkeys
  refine ⟨h1, ?_, ?_⟩
  · have h2 : (keysT (generate_posts_for_astro now prior items)).length
        = (generate_posts_for_astro now prior items).length :=
      List.length_map _ _
    rw [← h2, h1, List.length_map]
  · intro p hp
    exact hugo_fold_keys_mono now items prior p hp

/-- C3 witness: two distinct-slug items rendered into a populated
directory leave exactly those two files. -/
theorem renderer_clear_semantics_witness :
    ([itemAlpha, itemBeta].map slugFilename).Nodup ∧
    keysT (generate_posts_for_astro "T" staleTree [itemAlpha, itemBeta])
      = [itemAlpha, itemBeta].map slugFilename :=
  ⟨by decide,
    (renderer_clear_semantics "T" staleTree [itemAlpha, itemBeta]
      (by decide)).1⟩

/-- C4 counterexample: in the Hugo renderer, rendering two items with
the same title (same slug) keeps the EARLIER item's file — the later
write is skipped — so the single remaining file does not hold the
later item's content as claimed. -/
theorem hugo_duplicate_slug_counterexample :
    generate_hugo_posts "T" [] [itemDupA, itemDupB]
      = [("ai-breakthrough.md", mkHugoContent "T" itemDupA)] ∧
    mkHugoContent "T" itemDupA ≠ mkHugoContent "T" itemDupB := by decide

/-- C4 (amended): on a slug collision within one render, the Astro
renderer lets the later item overwrite the earlier (one file, later
content); the Hugo renderer keeps the earlier item's file and skips
the later (one file, earlier content). -/
theorem duplicate_slug_overwrite (now : String) (i1 i2 : Item)
    (h : slugFilename i1 = slugFilename i2) :
    generate_posts_for_astro now [] [i1, i2]
      = [(slugFilename i2, mkAstroContent now i2)] ∧
    generate_hugo_posts now [] [i1, i2]
      = [(slugFilename i1, mkHugoContent now i1)] := by
  constructor
  · simp only [generate_posts_for_astro, List.foldl_cons, List.foldl_nil]
    rw [show insertT (slugFilename i1) (mkAstroContent now i1) ([] : Tree)
      = [(slugFilename i1, mkAstroContent now i1)] from rfl]
    simp [insertT, h]
  · simp only [generate_hugo_posts, List.foldl_cons, List.foldl_nil]
    rw [show lookupT (slugFilename i1) ([] : Tree) = none from rfl]
    simp only []
    rw [show insertT (slugFilename i1) (mkHugoContent now i1) ([] : Tree)
      = [(slugFilename i1, mkHugoContent now i1)] from rfl]
    rw [show lookupT (slugFilename i2)
        [(slugFilename i1, mkHugoContent now i1)]
      = if slugFilename i1 = slugFilename i2 then
          some (mkHugoContent now i1) else none from rfl]
    rw [if_pos h]

/-- C4 witness: two identically titled items rendered by the Astro
renderer leave one file holding the later item's content. -/
theorem duplicate_slug_overwrite_witness :
    slugFilename itemDupA = slugFilename itemDupB ∧
    generate_posts_for_astro "T" [] [itemDupA, itemDupB]
      = [(slugFilename itemDupB, mkAstroContent "T" itemDupB)] :=
  ⟨by decide,
    (duplicate_slug_overwrite "T" itemDupA itemDupB (by decide)).1⟩

/-- C6 counterexample: a preserved path existing in the cloned branch
with empty content is dropped: publishing with an empty output
directory leaves no `sitemap.xml` at all, so the path is neither
present nor content-identical afterwards. -/
theorem empty_sitemap_not_preserved_counterexample :
    lookupT "sitemap.xml" [("sitemap.xml", "")] = some "" ∧
    lookupT "sitemap.xml"
      (finalTreeA [("sitemap.xml", "")] [] "example.com") = none := by decide

/-- C6 (amended): for every prior deploy state in which a preserved
path (`CNAME` or `sitemap.xml`) exists in the cloned branch with
non-empty content, publish leaves that path present with content
identical to its pre-clearing snapshot, overwriting anything the build
produced at that path. -/
theorem strategyA_preserves_nonempty (clone output : Tree)
    (domain s : String) :
    (lookupT "CNAME" clone = some s → s ≠ "" →
      lookupT "CNAME" (finalTreeA clone output domain) = some s) ∧
    (lookupT "sitemap.xml" clone = some s → s ≠ "" →
      lookupT "sitemap.xml" (finalTreeA clone output domain) = some s) := by
  constructor
  · intro h hs
    rw [lookupT_finalTreeA, if_pos rfl, h]
    simp [optTruthy, hs]
  · intro h hs
    rw [lookupT_finalTreeA, if_neg (by decide), if_pos rfl, h]
    simp [optTruthy, hs]

/-- C6 witness: a non-empty CNAME in the cloned branch survives a
publish whose build output even contains a competing CNAME. -/
theorem strategyA_preserves_nonempty_witness :
    lookupT "CNAME" [("CNAME", "news.example.com")]
      = some "news.example.com" ∧
    ("news.example.com" : String) ≠ "" ∧
    lookupT "CNAME" (finalTreeA [("CNAME", "news.example.com")]
      [("CNAME", "build-generated")] "other.org")
      = some "news.example.com" :=
  ⟨by decide, by decide,
    (strategyA_preserves_nonempty [("CNAME", "news.example.com")]
      [("CNAME", "build-generated")] "other.org" "news.example.com").1
      (by decide) (by decide)⟩

/-- C7: strategy A is idempotent over the push: whenever the staged
tree is map-identical to the cloned branch content the commit reports
nothing to commit, the push is skipped, and the run ends successfully;
consequently a second publish run with identical output-directory
content (its clone being the first run's result) pushes nothing and is
not a failure. -/
theorem strategyA_idempotent (clone output : Tree) (domain : String)
    (pushOk : Bool) :
    (treeEqB (finalTreeA clone output domain) clone = true →
      deployA clone output domain pushOk =
        ⟨DeployOutcome.noopSuccess, false, false, clone⟩) ∧
    (deployA (deployA clone output domain true).newRemote output domain
        pushOk).outcome = DeployOutcome.noopSuccess ∧
    (deployA (deployA clone output domain true).newRemote output domain
        pushOk).pushed = false := by
  have hnoop : ∀ (c o : Tree) (d : String) (p : Bool),
      treeEqB (finalTreeA c o d) c = true →
      deployA c o d p = ⟨DeployOutcome.noopSuccess, false, false, c⟩ := by
    intro c o d p hEq
    unfold deployA
    rw [if_pos hEq]
  refine ⟨hnoop clone output domain pushOk, ?_⟩
  by_cases h : treeEqB (finalTreeA clone output domain) clone = true
  · rw [hnoop clone output domain true h]
    rw [show (⟨DeployOutcome.noopSuccess, false, false, clone⟩ :
      DeployAResult).newRemote = clone from rfl]
    rw [hnoop clone output domain pushOk h]
    exact ⟨rfl, rfl⟩
  · have hrun : deployA clone output domain true =
        ⟨DeployOutcome.success, true, false,
          finalTreeA clone output domain⟩ := by
      unfold deployA
      rw [if_neg h, if_pos rfl]
    rw [hrun]
    rw [show (⟨DeployOutcome.success, true, false,
      finalTreeA clone output domain⟩ : DeployAResult).newRemote
      = finalTreeA clone output domain from rfl]
    rw [hnoop (finalTreeA clone output domain) output domain pushOk
      (finalTreeA_idem clone output domain)]
    exact ⟨rfl, rfl⟩

/-- C7 witness: a clone already equal to the restored output is a
nothing-to-commit run that succeeds without pushing. -/
theorem strategyA_idempotent_witness :
    treeEqB (finalTreeA [("CNAME", "d.org")] [] "d.org")
      [("CNAME", "d.org")] = true ∧
    deployA [("CNAME", "d.org")] [] "d.org" false =
      ⟨DeployOutcome.noopSuccess, false, false, [("CNAME", "d.org")]⟩ :=
  ⟨by decide,
    (strategyA_idempotent [("CNAME", "d.org")] [] "d.org" false).1
      (by decide)⟩

/-- C9 counterexample: a failed force-push raises out of
`deploy_to_github` with no cleanup (the source has no `try`/`finally`
around the push), so the scratch directory remains on disk on that
error path — against the claimed unconditional discard. -/
theorem scratch_remains_counterexample :
    (deployA [] [("index.html", "x")] "example.com" false).outcome
      = DeployOutcome.errorRaised ∧
    (deployA [] [("index.html", "x")] "example.com" false).scratchRemains
      = true := by decide

/-- C9 (amended): the scratch clone directory is removed exactly on
the two success paths (normal push and the nothing-to-commit fast
path); on an error path such as a failing push it remains on disk
(the next run deletes it at startup). -/
theorem scratch_cleanup (clone output : Tree) (domain : String)
    (pushOk : Bool) :
    (deployA clone output domain pushOk).scratchRemains = false ↔
      (deployA clone output domain pushOk).outcome
        = DeployOutcome.noopSuccess ∨
      (deployA clone output domain pushOk).outcome
        = DeployOutcome.success := by
  unfold deployA
  by_cases h1 : treeEqB (finalTreeA clone output domain) clone = true
  · simp [h1]
  · by_cases h2 : pushOk = true <;> simp [h1, h2]

/-- C10: a previously deployed `CNAME` whose content is the empty
string is treated as absent: its content is not restored, and with a
configured domain the publish writes a fresh marker holding the
whitespace-stripped domain value instead, whatever the build output
held at that path. -/
theorem empty_cname_replaced (clone output : Tree) (domain : String)
    (h : lookupT "CNAME" clone = some "") (hd : domain ≠ "") :
    lookupT "CNAME" (finalTreeA clone output domain)
      = some (pyStrip domain) := by
  rw [lookupT_finalTreeA, if_pos rfl, h]
  simp [optTruthy, hd]

/-- C10 witness: an empty prior CNAME plus a configured domain yields
a marker holding the stripped domain, overriding the build output. -/
theorem empty_cname_replaced_witness :
    lookupT "CNAME" [("CNAME", "")] = some "" ∧
    (" news.example.com " : String) ≠ "" ∧
    lookupT "CNAME" (finalTreeA [("CNAME", "")] [("CNAME", "built")]
      " news.example.com ") = some (pyStrip " news.example.com ") :=
  ⟨by decide, by decide,
    empty_cname_replaced [("CNAME", "")] [("CNAME", "built")]
      " news.example.com " (by decide) (by decide)⟩

end Redeemlink
